import Mathlib

/-!
Verification development for the multi-account WhatsApp gateway server
(`src/server/index.js`).  The JavaScript source is shallowly embedded:
JS strings are modelled as `List Char` (`JStr`), JS `string | null |
undefined` values as `Option JStr`, JS `Map`s as insertion-ordered
association lists, and each gateway event handler as a pure function from
account state to account state paired with the list of emitted
socket broadcasts.
-/

/-- A JavaScript string, modelled as its list of characters. -/
abbrev JStr := List Char

/-- JS `a || b` on `string | null | undefined` values: the empty string,
`null` and `undefined` are falsy. -/
def jsOr (a b : Option JStr) : Option JStr :=
  match a with
  | some s => if s = [] then b else some s
  | none => b

/-- JS truthiness of a `string | null | undefined` value. -/
def truthy (a : Option JStr) : Bool :=
  match a with
  | some s => s ≠ []
  | none => false

theorem jsOr_of_truthy {a : Option JStr} (b : Option JStr) (h : truthy a = true) :
    jsOr a b = a := by
  cases a with
  | none => simp [truthy] at h
  | some s =>
    simp only [truthy, ne_eq, decide_eq_true_eq] at h
    simp [jsOr, h]

theorem jsOr_of_falsy {a : Option JStr} (b : Option JStr) (h : truthy a = false) :
    jsOr a b = b := by
  cases a with
  | none => rfl
  | some s =>
    simp only [truthy, ne_eq, decide_eq_true_eq] at h
    simp at h
    simp [jsOr, h]

theorem truthy_jsOr (a b : Option JStr) :
    truthy (jsOr a b) = (truthy a || truthy b) := by
  cases a with
  | none => rfl
  | some s =>
    by_cases h : s = [] <;> simp [jsOr, truthy, h]

/-! ### JS `Map` embedding

JS `Map`s preserve insertion order; `set` on an existing key updates the
value in place, `set` on a fresh key appends. -/

/-- `m.get(k)`, returning `none` for a missing key (JS `undefined`). -/
def mget {K V : Type} [DecidableEq K] (m : List (K × V)) (k : K) : Option V :=
  match m with
  | [] => none
  | (k', v) :: rest => if k' = k then some v else mget rest k

/-- `m.set(k, v)`: replace in place if present, append otherwise. -/
def mset {K V : Type} [DecidableEq K] (m : List (K × V)) (k : K) (v : V) :
    List (K × V) :=
  match m with
  | [] => [(k, v)]
  | (k', v') :: rest => if k' = k then (k, v) :: rest else (k', v') :: mset rest k v

/-- `m.has(k)`. -/
def mhas {K V : Type} [DecidableEq K] (m : List (K × V)) (k : K) : Bool :=
  (mget m k).isSome

theorem mget_mset_self {K V : Type} [DecidableEq K] (m : List (K × V)) (k : K) (v : V) :
    mget (mset m k v) k = some v := by
  induction m with
  | nil => simp [mget, mset]
  | cons hd tl ih =>
    obtain ⟨k', v'⟩ := hd
    by_cases h : k' = k <;> simp [mget, mset, h, ih]

theorem mget_mset_ne {K V : Type} [DecidableEq K] (m : List (K × V)) (k k' : K) (v : V)
    (h : k ≠ k') : mget (mset m k v) k' = mget m k' := by
  induction m with
  | nil => simp [mget, mset, h]
  | cons hd tl ih =>
    obtain ⟨k₀, v₀⟩ := hd
    by_cases h₀ : k₀ = k
    · subst h₀
      simp [mget, mset, h]
    · simp only [mset, if_neg h₀]
      by_cases h₁ : k₀ = k' <;> simp [mget, h₁, ih]

/-- Setting a key to the value it already holds leaves the map unchanged. -/
theorem mset_eq_of_mget {K V : Type} [DecidableEq K] (m : List (K × V)) (k : K) (v : V)
    (h : mget m k = some v) : mset m k v = m := by
  induction m with
  | nil => simp [mget] at h
  | cons hd tl ih =>
    obtain ⟨k', v'⟩ := hd
    by_cases hk : k' = k
    · subst hk
      have h' : v' = v := by simpa [mget] using h
      subst h'
      simp [mset]
    · simp only [mget, if_neg hk] at h
      simp [mset, hk, ih h]

theorem mset_mset_same {K V : Type} [DecidableEq K] (m : List (K × V)) (k : K) (v : V) :
    mset (mset m k v) k v = mset m k v :=
  mset_eq_of_mget _ _ _ (mget_mset_self m k v)

/-! ### IdentityResolver: `normalizeJid` and `getPhoneFromJid` -/

/-- At the current position, try to match the regex `:[\d]+@` (a device
suffix followed by the domain separator).  On a match, return the input with
the matched span replaced by `'@'`. -/
def devMatchAt : JStr → Option JStr
  | [] => none
  | c :: rest =>
      if c = ':' then
        let ds := rest.takeWhile Char.isDigit
        let tail := rest.dropWhile Char.isDigit
        if ds = [] then none
        else
          match tail with
          | '@' :: t => some ('@' :: t)
          | _ => none
      else none

/-- JS `jid.replace(/:[\d]+@/, '@')`: replace the first match only. -/
def replaceDeviceSuffix : JStr → JStr
  | [] => []
  | c :: rest =>
      match devMatchAt (c :: rest) with
      | some r => r
      | none => c :: replaceDeviceSuffix rest

/-- The default domain suffix `"@s.whatsapp.net"`. -/
def defaultDomain : JStr := '@' :: "s.whatsapp.net".toList

/-- `normalizeJid(jid)` from `src/server/index.js` lines 161-168.
Returns `none` for input `null`/`undefined`/`""` (all falsy in JS). -/
def normalizeJid (jid : Option JStr) : Option JStr :=
  match jid with
  | none => none
  | some s =>
      if s = [] then none
      else
        let normalized := replaceDeviceSuffix s
        let normalized :=
          if normalized.contains '@' then normalized
          else normalized ++ defaultDomain
        some normalized

/-- `getPhoneFromJid(jid)` from lines 171-174:
`jid.split('@')[0].split(':')[0]`, i.e. the prefix before the first `'@'`,
then the prefix of that before the first `':'`.  `none` input yields `""`. -/
def getPhoneFromJid (jid : Option JStr) : JStr :=
  match jid with
  | none => []
  | some s => (s.takeWhile (· ≠ '@')).takeWhile (· ≠ ':')

example : normalizeJid (some "123:4@s.whatsapp.net".toList)
    = some "123@s.whatsapp.net".toList := by decide
example : normalizeJid (some "123".toList) = some "123@s.whatsapp.net".toList := by decide
example : normalizeJid (some "1234:5".toList)
    = some "1234:5@s.whatsapp.net".toList := by decide
example : getPhoneFromJid (some "5511999@s.whatsapp.net".toList) = "5511999".toList := by
  decide
example : getPhoneFromJid none = [] := by decide

/-! ### Message and contact data model -/

/-- A message key (`msg.key`). -/
structure MsgKey where
  remoteJid : JStr
  fromMe : Bool
  id : JStr
deriving DecidableEq

/-- The content variants of `msg.message` distinguished by `formatMessage`
(lines 513-571).  Protobuf message payloads carry exactly one variant. -/
inductive MContent where
  | conversation (text : JStr)
  | extendedText (text : JStr)
  | image (caption : Option JStr) (mimetype : Option JStr)
  | video (caption : Option JStr)
  | audio (mimetype : Option JStr)
  | document (fileName : Option JStr)
  | sticker
  | unsupported
deriving DecidableEq

/-- A raw gateway message.  `content = none` models `msg.message` being
null/undefined. -/
structure Msg where
  key : MsgKey
  pushName : Option JStr := none
  messageTimestamp : Int := 0
  content : Option MContent := none
deriving DecidableEq

/-- The frontend projection of a message produced by `formatMessage`.
`mediaData` is omitted: it is only populated by a network media download,
which the embedding does not model; no claim refers to it. -/
structure FMsg where
  id : JStr
  fromMe : Bool
  text : JStr
  mtype : JStr
  mediaMimetype : Option JStr
  timestamp : Int
  pushName : Option JStr
deriving DecidableEq

/-- `formatMessage` (lines 513-571), minus the optional media download. -/
def formatMessage (msg : Msg) : FMsg :=
  let unsupportedText : JStr := "[Mensagem não suportada]".toList
  let (text, mtype, mediaMimetype) : JStr × JStr × Option JStr :=
    match msg.content with
    | some (.conversation t) =>
        if t ≠ [] then (t, "text".toList, none)
        else (unsupportedText, "text".toList, none)
    | some (.extendedText t) =>
        if t ≠ [] then (t, "text".toList, none)
        else (unsupportedText, "text".toList, none)
    | some (.image caption mimetype) =>
        ((jsOr caption (some [])).getD [], "image".toList, mimetype)
    | some (.video caption) =>
        ((jsOr caption (some [])).getD [], "video".toList, none)
    | some (.audio mimetype) => ([], "audio".toList, mimetype)
    | some (.document fileName) =>
        ((jsOr fileName (some "Documento".toList)).getD [], "document".toList, none)
    | some .sticker => ([], "sticker".toList, none)
    | some .unsupported => (unsupportedText, "text".toList, none)
    | none => (unsupportedText, "text".toList, none)
  { id := msg.key.id
    fromMe := msg.key.fromMe
    text := text
    mtype := mtype
    mediaMimetype := mediaMimetype
    timestamp := msg.messageTimestamp
    pushName := msg.pushName }

/-- A stored contact record (the objects kept in `account.contacts`). -/
structure ContactRec where
  name : Option JStr := none
  notify : Option JStr := none
  verifiedName : Option JStr := none
deriving DecidableEq

/-- An incoming contact payload from `contacts.upsert` / `contacts.update`. -/
structure ContactPayload where
  id : JStr
  name : Option JStr := none
  notify : Option JStr := none
  verifiedName : Option JStr := none
deriving DecidableEq

/-- A chat record as kept in `account.chats`.  Numeric fields use `0` for
the JS falsy absent value. -/
structure ChatRec where
  id : JStr
  name : Option JStr := none
  lastMessage : Option FMsg := none
  timestamp : Int := 0
  conversationTimestamp : Int := 0
  unreadCount : Nat := 0
deriving DecidableEq

/-- A partial chat record from `chats.update`; `none` fields are absent
from the update object and are not copied by `Object.assign`. -/
structure ChatUpdate where
  id : JStr
  name : Option JStr := none
  lastMessage : Option FMsg := none
  timestamp : Option Int := none
  conversationTimestamp : Option Int := none
  unreadCount : Option Nat := none
deriving DecidableEq

/-- `Object.assign(chat, update)` restricted to the modelled fields. -/
def assignChat (c : ChatRec) (u : ChatUpdate) : ChatRec :=
  { c with
    name := match u.name with | some n => some n | none => c.name
    lastMessage := match u.lastMessage with | some m => some m | none => c.lastMessage
    timestamp := u.timestamp.getD c.timestamp
    conversationTimestamp := u.conversationTimestamp.getD c.conversationTimestamp
    unreadCount := u.unreadCount.getD c.unreadCount }

/-- Account connection state. -/
inductive ConnState where
  | connected
  | disconnected
  | qr
deriving DecidableEq

/-- The socket broadcasts a handler can emit (event names on `io.emit` /
`socket.emit`). -/
inductive Ev where
  | chatsUpdate
  | newMessage
  | accountStatus
  | accountsUpdate
  | accountQr
  | messageSent
  | reconnectScheduled
  | errorReply
  | messagesReply
  | historyReply
deriving DecidableEq

/-- The per-account mutable state owned by an `Account` object, plus the
bits of durable state the claims are about (`authCreds`: the auth folder
holds credential material; `savedPhone`: the phone number in the account's
last-persisted `accounts.json` record, `none` if never persisted). -/
structure AccStore where
  connectionState : ConnState := .disconnected
  hasSock : Bool := false
  phoneNumber : Option JStr := none
  chats : List (Option JStr × ChatRec) := []
  messages : List (Option JStr × List Msg) := []
  contacts : List (Option JStr × ContactRec) := []
  profilePics : List (Option JStr × Option JStr) := []
  pushNames : List (Option JStr × JStr) := []
  authCreds : Bool := false
  savedPhone : Option (Option JStr) := none
deriving DecidableEq

/-- The external lookups a handler can await: the optional in-memory
gateway store (`sock?.store?.contacts`), `groupMetadata` (`some subject` on
success, `none` when the call throws) and `profilePictureUrl` (likewise). -/
structure Oracles where
  storeContacts : Option (Option JStr → Option ContactRec)
  groupMetadata : JStr → Option JStr
  profilePicture : JStr → Option JStr

/-- Oracles for which every external lookup fails / is absent. -/
def noOracles : Oracles :=
  { storeContacts := none
    groupMetadata := fun _ => none
    profilePicture := fun _ => none }

/-! ### ProfilePictureCache and ContactDirectory resolution -/

/-- `getProfilePicture` (lines 497-510): permanent memoization, including
of the `null` obtained when the lookup throws. -/
def getProfilePicture (st : AccStore) (o : Oracles) (jid : JStr) :
    Option JStr × AccStore :=
  match mget st.profilePics (some jid) with
  | some v => (v, st)
  | none =>
      match o.profilePicture jid with
      | some url =>
          (some url, { st with profilePics := mset st.profilePics (some jid) (some url) })
      | none =>
          (none, { st with profilePics := mset st.profilePics (some jid) none })

/-- The `for (const [key, value] of account.contacts.entries())` loop of
`getContactInfo` (lines 442-447): `name` is reassigned at each entry whose
key has the target phone number, and the loop breaks on a truthy name. -/
def phoneScanLoop (entries : List (Option JStr × ContactRec)) (phone : JStr)
    (name : Option JStr) : Option JStr :=
  match entries with
  | [] => name
  | (k, v) :: rest =>
      if getPhoneFromJid k = phone then
        let n := jsOr (jsOr v.name v.notify) v.verifiedName
        if truthy n then n else phoneScanLoop rest phone n
      else phoneScanLoop rest phone name

/-- JS `s.slice(a, b)` for `0 ≤ a ≤ b`. -/
def jsSlice (s : JStr) (a b : Nat) : JStr := (s.drop a).take (b - a)

/-- JS `s.slice(-n)`: the last `n` characters (the whole string when
shorter). -/
def takeLast {α : Type} (n : Nat) (s : List α) : List α := s.drop (s.length - n)

/-- The unknown-number fallback formatting of `getContactInfo`
(lines 475-488): Brazilian country-code aware phone rendering. -/
def formatUnknownNumber (number : JStr) : JStr :=
  if "55".toList.isPrefixOf number ∧ 12 ≤ number.length then
    let ddd := jsSlice number 2 4
    let rest := number.drop 4
    if rest.length = 9 then
      ['('] ++ ddd ++ [')', ' '] ++ rest.take 5 ++ ['-'] ++ rest.drop 5
    else if rest.length = 8 then
      ['('] ++ ddd ++ [')', ' '] ++ rest.take 4 ++ ['-'] ++ rest.drop 4
    else
      '+' :: number
  else
    '+' :: number

/-- The result of `getContactInfo`: resolved name, profile picture, and the
account state after any caching side effects. -/
structure GCResult where
  name : Option JStr
  profilePic : Option JStr
  st : AccStore
deriving DecidableEq

/-- Steps 1-4 of the `getContactInfo` name chain (lines 436-459): exact
directory match, phone-number scan, push-name table, gateway-store lookup.
Each step runs only while `name` is still falsy, exactly as the
`if (!name)` guards do in the source. -/
def resolveNameSteps (st : AccStore) (o : Oracles) (jid : JStr) : Option JStr :=
  let normalizedJid := normalizeJid (some jid)
  let phoneNumber := getPhoneFromJid (some jid)
  -- const contact = account.contacts.get(normalizedJid) || account.contacts.get(jid)
  let contact := (mget st.contacts normalizedJid).orElse (fun _ => mget st.contacts (some jid))
  let name : Option JStr :=
    match contact with
    | some c => jsOr (jsOr c.name c.notify) c.verifiedName
    | none => none
  -- phone-number scan of stored keys
  let name := if truthy name then name else phoneScanLoop st.contacts phoneNumber name
  -- push-name table: normalized id, raw id, then phone number
  let name :=
    if truthy name then name
    else
      jsOr (jsOr ((mget st.pushNames normalizedJid).map id) (mget st.pushNames (some jid)))
        (mget st.pushNames (some phoneNumber))
  -- sock.store.contacts, when the gateway session exposes a store
  if truthy name then name
  else
    match o.storeContacts with
    | some sc =>
        match (sc (some jid)).orElse (fun _ => sc normalizedJid) with
        | some c => jsOr (jsOr c.name c.notify) c.verifiedName
        | none => name
    | none => name

/-- Step 5 of `getContactInfo` (lines 461-490): the group-metadata lookup
(cached into the directory on success) and the synthesized fallbacks. -/
def resolveFallback (st : AccStore) (o : Oracles) (jid : JStr) (phoneNumber : JStr)
    (name : Option JStr) : Option JStr × AccStore :=
  if truthy name then (name, st)
  else if "@g.us".toList.isSuffixOf jid then
    match o.groupMetadata jid with
    | some subject =>
        (some subject,
          { st with contacts :=
              (mset st.contacts (some jid)
                ({ name := some subject, notify := some subject } : ContactRec)) })
    | none => (some (jid.takeWhile (· ≠ '@')), st)
  else if "@lid".toList.isSuffixOf jid then
    (some ("Canal ".toList ++ takeLast 6 (jid.takeWhile (· ≠ '@'))), st)
  else if "@newsletter".toList.isSuffixOf jid then
    (some "Newsletter".toList, st)
  else
    (some (formatUnknownNumber phoneNumber), st)

/-- `getContactInfo` (lines 431-494): the deterministic name-resolution
chain followed by the profile-picture lookup. -/
def getContactInfo (st : AccStore) (o : Oracles) (jid : JStr) : GCResult :=
  let name := resolveNameSteps st o jid
  let r := resolveFallback st o jid (getPhoneFromJid (some jid)) name
  let p := getProfilePicture r.2 o jid
  { name := r.1, profilePic := p.1, st := p.2 }

example :
    (getContactInfo {} noOracles "5511987654321@s.whatsapp.net".toList).name
      = some "(11) 98765-4321".toList := by decide

/-! ### SnapshotFormatter: `getFormattedChats` -/

/-- A chat-list entry as produced by `getFormattedChats` (lines 586-608). -/
structure FormattedChat where
  id : JStr
  name : Option JStr
  profilePic : Option JStr
  lastMessage : Option FMsg
  timestamp : Int
  unreadCount : Nat
deriving DecidableEq

/-- The descending-timestamp order `(b.timestamp||0)-(a.timestamp||0)`
used by the chat-list sort.  `Array.prototype.sort` with this comparator is
modelled by insertion sort: the source only relies on the output being
sorted. -/
def chatGeRel (a b : FormattedChat) : Prop := b.timestamp ≤ a.timestamp

instance : DecidableRel chatGeRel :=
  fun a b => inferInstanceAs (Decidable (b.timestamp ≤ a.timestamp))

instance : IsTotal FormattedChat chatGeRel :=
  ⟨fun a b => le_total b.timestamp a.timestamp⟩

instance : IsTrans FormattedChat chatGeRel :=
  ⟨fun _ _ _ h1 h2 => le_trans h2 h1⟩

/-- The body of the `for (const chat of chatArray)` loop of
`getFormattedChats` (lines 590-603): skip chats without activity, annotate
the rest via `getContactInfo` (threading its caching side effects). -/
def formatChatStep (o : Oracles) (p : List FormattedChat × AccStore) (chat : ChatRec) :
    List FormattedChat × AccStore :=
  if chat.lastMessage = none ∧ chat.conversationTimestamp = 0 then p
  else
    let r := getContactInfo p.2 o chat.id
    (p.1 ++ [{ id := chat.id
               name := r.name
               profilePic := r.profilePic
               lastMessage := chat.lastMessage
               timestamp := if chat.timestamp ≠ 0 then chat.timestamp
                            else chat.conversationTimestamp
               unreadCount := chat.unreadCount }], r.st)

/-- `getFormattedChats` (lines 586-608): filter chats with activity,
annotate via `getContactInfo`, sort descending by timestamp, truncate
to 50. -/
def getFormattedChats (st : AccStore) (o : Oracles) :
    List FormattedChat × AccStore :=
  let chatArray := st.chats.map (·.2)
  let r := chatArray.foldl (formatChatStep o) ([], st)
  ((List.insertionSort chatGeRel r.1).take 50, r.2)

/-! ### EventReconciler: the gateway event handlers.

Each handler is a function `AccStore → ... → AccStore × List Ev` where the
event list records the socket broadcasts it emits, in order.  The
`io.emit('chats-update', ...)` calls that follow a `getFormattedChats`
computation also apply that computation's caching side effects. -/

/-- The `type` tag of a `messages.upsert` batch. -/
inductive UpsertType where
  | notify
  | append
deriving DecidableEq

/-- One iteration of the `contacts.upsert` loop (lines 259-277). -/
def contactsUpsertOne (st : AccStore) (c : ContactPayload) : AccStore :=
  let name := jsOr (jsOr c.name c.notify) c.verifiedName
  let normalizedId := normalizeJid (some c.id)
  let phoneNumber := getPhoneFromJid (some c.id)
  let contactData : ContactRec :=
    { name := if truthy name then name else none
      notify := c.notify
      verifiedName := c.verifiedName }
  if truthy name then
    { st with
      contacts := mset (mset st.contacts (some c.id) contactData) normalizedId contactData
      pushNames := mset (mset st.pushNames normalizedId (name.getD []))
        (some phoneNumber) (name.getD []) }
  else st

/-- The `contacts.upsert` handler (lines 257-284): merge the batch, then
broadcast the recomputed chat list once — only when connected. -/
def contactsUpsertHandler (st : AccStore) (o : Oracles) (batch : List ContactPayload) :
    AccStore × List Ev :=
  let st := batch.foldl contactsUpsertOne st
  if st.connectionState = .connected then
    ((getFormattedChats st o).2, [Ev.chatsUpdate])
  else (st, [])

/-- One iteration of the `contacts.update` loop (lines 287-297). -/
def contactsUpdateOne (st : AccStore) (u : ContactPayload) : AccStore :=
  let existing := (mget st.contacts (some u.id)).getD {}
  let name := jsOr (jsOr u.name u.notify) existing.name
  if truthy name then
    { st with contacts :=
        (mset st.contacts (some u.id)
          { existing with name := name, notify := jsOr u.notify existing.notify }) }
  else st

/-- The `contacts.update` handler (lines 286-303). -/
def contactsUpdateHandler (st : AccStore) (o : Oracles) (batch : List ContactPayload) :
    AccStore × List Ev :=
  let st := batch.foldl contactsUpdateOne st
  if st.connectionState = .connected then
    ((getFormattedChats st o).2, [Ev.chatsUpdate])
  else (st, [])

/-- `updateChatInList` (lines 574-583): fold a message into the chat's
last-message projection and unread counter, then broadcast the recomputed
chat list. -/
def updateChatInList (st : AccStore) (o : Oracles) (jid : JStr) (msg : Msg) :
    AccStore × List Ev :=
  let existing := (mget st.chats (some jid)).getD { id := jid, unreadCount := 0 }
  let existing :=
    { existing with lastMessage := some (formatMessage msg)
                    timestamp := msg.messageTimestamp }
  let existing :=
    if ¬msg.key.fromMe then { existing with unreadCount := existing.unreadCount + 1 }
    else existing
  let st := { st with chats := mset st.chats (some jid) existing }
  ((getFormattedChats st o).2, [Ev.chatsUpdate])

/-- Ensure-then-dedup append used by `messages.upsert` (lines 320-327) and
`messaging-history.set` (lines 406-412). -/
def appendMsgDedup (st : AccStore) (jid : JStr) (msg : Msg) : AccStore :=
  let st :=
    if ¬ mhas st.messages (some jid) then
      { st with messages := mset st.messages (some jid) [] }
    else st
  let existing := (mget st.messages (some jid)).getD []
  if existing.any (fun m2 => m2.key.id = msg.key.id) then st
  else { st with messages := mset st.messages (some jid) (existing ++ [msg]) }

/-- One iteration of the `messages.upsert` loop (lines 307-342). -/
def messagesUpsertStep (o : Oracles) (utype : UpsertType)
    (p : AccStore × List Ev) (msg : Msg) : AccStore × List Ev :=
  let st := p.1
  let evs := p.2
  let jid := msg.key.remoteJid
  let st :=
    if truthy msg.pushName ∧ ¬msg.key.fromMe then
      let normalizedJid := normalizeJid (some jid)
      let phoneNumber := getPhoneFromJid (some jid)
      let pn := msg.pushName.getD []
      let st :=
        { st with pushNames :=
            (mset (mset st.pushNames normalizedJid pn) (some phoneNumber) pn) }
      if ¬ mhas st.contacts normalizedJid then
        { st with contacts :=
            (mset st.contacts normalizedJid { name := msg.pushName, notify := msg.pushName }) }
      else st
    else st
  let st := appendMsgDedup st jid msg
  if ¬msg.key.fromMe ∧ utype = .notify then
    let r := getContactInfo st o jid
    let u := updateChatInList r.st o jid msg
    (u.1, evs ++ [Ev.newMessage] ++ u.2)
  else (st, evs)

/-- The `messages.upsert` handler (lines 306-343). -/
def messagesUpsertHandler (st : AccStore) (o : Oracles) (batch : List Msg)
    (utype : UpsertType) : AccStore × List Ev :=
  batch.foldl (messagesUpsertStep o utype) (st, [])

/-- The `chats.upsert` handler (lines 346-351). -/
def chatsUpsertHandler (st : AccStore) (o : Oracles) (batch : List ChatRec) :
    AccStore × List Ev :=
  let st := batch.foldl
    (fun st chat => { st with chats := mset st.chats (some chat.id) chat }) st
  ((getFormattedChats st o).2, [Ev.chatsUpdate])

/-- The `chats.update` handler (lines 353-362): shallow-merge partial
updates; unknown chat ids are dropped. -/
def chatsUpdateHandler (st : AccStore) (o : Oracles) (batch : List ChatUpdate) :
    AccStore × List Ev :=
  let st := batch.foldl
    (fun st u =>
      match mget st.chats (some u.id) with
      | some chat => { st with chats := mset st.chats (some u.id) (assignChat chat u) }
      | none => st) st
  ((getFormattedChats st o).2, [Ev.chatsUpdate])

/-- Phase 1 of `messaging-history.set` (lines 369-381): store chat
metadata and extract chat names. -/
def historyChatStep (st : AccStore) (chat : ChatRec) : AccStore :=
  let st := { st with chats := mset st.chats (some chat.id) chat }
  if truthy chat.name then
    let normalizedJid := normalizeJid (some chat.id)
    let phoneNumber := getPhoneFromJid (some chat.id)
    let rec0 : ContactRec := { name := chat.name, notify := chat.name }
    let cn := chat.name.getD []
    { st with
      contacts := mset (mset st.contacts (some chat.id) rec0) normalizedJid rec0
      pushNames := mset (mset st.pushNames normalizedJid cn) (some phoneNumber) cn }
  else st

/-- Phase 2 of `messaging-history.set` (lines 385-413): extract push names
from replayed inbound messages, then bulk-append with the dedup rule. -/
def historyMsgStep (st : AccStore) (msg : Msg) : AccStore :=
  let jid := msg.key.remoteJid
  let st :=
    if truthy msg.pushName then
      let normalizedJid := normalizeJid (some jid)
      let phoneNumber := getPhoneFromJid (some jid)
      if ¬msg.key.fromMe then
        let pn := msg.pushName.getD []
        let st :=
          { st with pushNames :=
              (mset (mset (mset st.pushNames normalizedJid pn) (some phoneNumber) pn)
                (some jid) pn) }
        let missingName :=
          match mget st.contacts normalizedJid with
          | none => true
          | some r => ¬ truthy r.name
        if missingName then
          let rec0 : ContactRec := { name := msg.pushName, notify := msg.pushName }
          { st with contacts := mset (mset st.contacts normalizedJid rec0) (some jid) rec0 }
        else st
      else st
    else st
  appendMsgDedup st jid msg

/-- The `messaging-history.set` handler (lines 365-417): chats first, then
messages, then a single `chats-update` broadcast. -/
def historySetHandler (st : AccStore) (o : Oracles) (syncedChats : List ChatRec)
    (syncedMessages : List Msg) : AccStore × List Ev :=
  let st := syncedChats.foldl historyChatStep st
  let st := syncedMessages.foldl historyMsgStep st
  ((getFormattedChats st o).2, [Ev.chatsUpdate])

/-- The store/broadcast effects of a successful send in the
`send-message` handler (lines 810-822): the sent message is pushed with no
duplicate check, then the chat list is updated. -/
def sendMessageRecord (st : AccStore) (o : Oracles) (jid : JStr) (sent : Msg) :
    AccStore × List Ev :=
  let st :=
    if ¬ mhas st.messages (some jid) then
      { st with messages := mset st.messages (some jid) [] }
    else st
  let existing := (mget st.messages (some jid)).getD []
  let st := { st with messages := mset st.messages (some jid) (existing ++ [sent]) }
  let u := updateChatInList st o jid sent
  (u.1, [Ev.messageSent] ++ u.2)

/-- The `get-messages` handler (lines 831-863).  The reply payload (the
formatted, ascending-sorted message list) is not modelled; the handler's
state effect is the unread-counter reset of lines 854-858 plus
`getContactInfo` caching. -/
def getMessagesHandler (st : AccStore) (o : Oracles) (jid : JStr) :
    AccStore × List Ev :=
  if st.connectionState ≠ .connected then (st, [Ev.errorReply])
  else
    let r := getContactInfo st o jid
    let st := r.st
    let st :=
      match mget st.chats (some jid) with
      | some chat =>
          { st with chats := mset st.chats (some jid) { chat with unreadCount := 0 } }
      | none => st
    (st, [Ev.messagesReply])

/-- The reply of the `get-history` handler. -/
structure HistoryResult where
  messages : List FMsg
  total : Nat
deriving DecidableEq

/-- Ascending order on formatted-message timestamps
(`(a, b) => a.timestamp - b.timestamp`). -/
def fmsgLeRel (a b : FMsg) : Prop := a.timestamp ≤ b.timestamp

instance : DecidableRel fmsgLeRel :=
  fun a b => inferInstanceAs (Decidable (a.timestamp ≤ b.timestamp))

instance : IsTotal FMsg fmsgLeRel := ⟨fun a b => le_total a.timestamp b.timestamp⟩

instance : IsTrans FMsg fmsgLeRel := ⟨fun _ _ _ h1 h2 => le_trans h1 h2⟩

/-- The pure windowing computation of the `get-history` handler
(lines 874-894): filter by `timestamp ≥ now - days*86400`, take the last
`limit || 100` entries of the filtered list, format, sort ascending;
`total` counts all filtered entries. -/
def historyWindow (msgs : List Msg) (now days : Int) (limit : Nat) : HistoryResult :=
  let startTime := now - days * (24 * 60 * 60)
  let filteredMsgs := msgs.filter (fun m => decide (startTime ≤ m.messageTimestamp))
  let limitedMsgs := takeLast (if limit = 0 then 100 else limit) filteredMsgs
  let formatted := limitedMsgs.map formatMessage
  { messages := List.insertionSort fmsgLeRel formatted, total := filteredMsgs.length }

/-- The `get-history` handler (lines 866-899). -/
def getHistoryHandler (st : AccStore) (jid : JStr) (now days : Int) (limit : Nat) :
    (AccStore × Option HistoryResult) × List Ev :=
  if st.connectionState ≠ .connected then ((st, none), [Ev.errorReply])
  else
    let storedMsgs := (mget st.messages (some jid)).getD []
    ((st, some (historyWindow storedMsgs now days limit)), [Ev.historyReply])

/-- `DisconnectReason.loggedOut` from the gateway library. -/
def loggedOutCode : Int := 401

/-- The `logout-account` handler (lines 714-735), for an account that
exists and has a live socket: clear every in-account store except
`pushNames`, purge the auth folder, null the phone number, persist. -/
def logoutAccountHandler (st : AccStore) : AccStore × List Ev :=
  if st.hasSock then
    ({ st with
        hasSock := false
        connectionState := .disconnected
        chats := []
        messages := []
        contacts := []
        profilePics := []
        phoneNumber := none
        authCreds := false
        savedPhone := some none },
      [Ev.accountsUpdate, Ev.accountStatus])
  else (st, [])

/-- The `connection === 'close'` branch of the `connection.update` handler
(lines 219-235).  `statusCode = none` models a missing
`lastDisconnect?.error?.output?.statusCode`. -/
def connectionCloseHandler (st : AccStore) (statusCode : Option Int) :
    AccStore × List Ev :=
  let shouldReconnect := statusCode ≠ some loggedOutCode
  let st := { st with connectionState := .disconnected }
  if shouldReconnect then
    (st, [Ev.accountStatus, Ev.accountsUpdate, Ev.reconnectScheduled])
  else
    ({ st with authCreds := false, phoneNumber := none, savedPhone := some none },
      [Ev.accountStatus, Ev.accountsUpdate])

/-! ### Lemmas about the IdentityResolver -/

theorem takeWhile_digits_append (d b : JStr) (hd : ∀ c ∈ d, c.isDigit = true) :
    (d ++ '@' :: b).takeWhile Char.isDigit = d ∧
      (d ++ '@' :: b).dropWhile Char.isDigit = '@' :: b := by
  induction d with
  | nil =>
    have h : '@'.isDigit = false := by decide
    constructor <;> simp [List.takeWhile_cons, List.dropWhile_cons, h]
  | cons c cs ih =>
    have hc : c.isDigit = true := hd c (List.mem_cons_self c cs)
    have ih' := ih (fun c' hc' => hd c' (List.mem_cons_of_mem _ hc'))
    constructor <;>
      simp [List.takeWhile_cons, List.dropWhile_cons, hc, ih'.1, ih'.2]

theorem devMatchAt_none_of_no_at (s : JStr) (h : '@' ∉ s) : devMatchAt s = none := by
  cases s with
  | nil => rfl
  | cons c rest =>
    simp only [devMatchAt]
    by_cases hc : c = ':'
    · subst hc
      rw [if_pos rfl]
      by_cases hds : rest.takeWhile Char.isDigit = []
      · rw [if_pos hds]
      · rw [if_neg hds]
        rcases htail : rest.dropWhile Char.isDigit with _ | ⟨c', t⟩
        · rfl
        · by_cases hc' : c' = '@'
          · exfalso
            apply h
            apply List.mem_cons_of_mem
            have hmem : c' ∈ rest := (List.dropWhile_sublist Char.isDigit).mem
              (htail ▸ List.mem_cons_self c' t)
            exact hc' ▸ hmem
          · simp [hc']
    · rw [if_neg hc]

theorem replaceDeviceSuffix_of_no_at (s : JStr) (h : '@' ∉ s) :
    replaceDeviceSuffix s = s := by
  induction s with
  | nil => rfl
  | cons c rest ih =>
    simp only [replaceDeviceSuffix]
    rw [devMatchAt_none_of_no_at _ h]
    exact congrArg (c :: ·) (ih (fun hm => h (List.mem_cons_of_mem _ hm)))

theorem devMatchAt_match (d b : JStr) (hd : d ≠ []) (hdig : ∀ c ∈ d, c.isDigit = true) :
    devMatchAt (':' :: (d ++ '@' :: b)) = some ('@' :: b) := by
  simp only [devMatchAt, if_pos rfl]
  rw [(takeWhile_digits_append d b hdig).1, (takeWhile_digits_append d b hdig).2,
    if_neg hd]
  simp

theorem replaceDeviceSuffix_strip (a d b : JStr) (ha : ':' ∉ a) (hd : d ≠ [])
    (hdig : ∀ c ∈ d, c.isDigit = true) :
    replaceDeviceSuffix (a ++ ':' :: (d ++ '@' :: b)) = a ++ '@' :: b := by
  induction a with
  | nil =>
    simp only [List.nil_append, replaceDeviceSuffix]
    rw [devMatchAt_match d b hd hdig]
  | cons x a' ih =>
    have hx : x ≠ ':' := fun hh => ha (hh ▸ List.mem_cons_self x a')
    rw [List.cons_append]
    simp only [replaceDeviceSuffix]
    have hnone : devMatchAt (x :: (a' ++ ':' :: (d ++ '@' :: b))) = none := by
      simp only [devMatchAt]
      rw [if_neg hx]
    rw [hnone]
    exact congrArg (x :: ·) (ih (fun hm => ha (List.mem_cons_of_mem _ hm)))

theorem normalizeJid_no_at (s : JStr) (hne : s ≠ []) (h : '@' ∉ s) :
    normalizeJid (some s) = some (s ++ defaultDomain) := by
  simp only [normalizeJid]
  rw [if_neg hne, replaceDeviceSuffix_of_no_at s h]
  simp [h]

theorem normalizeJid_strip (a d b : JStr) (ha : ':' ∉ a) (hd : d ≠ [])
    (hdig : ∀ c ∈ d, c.isDigit = true) :
    normalizeJid (some (a ++ ':' :: (d ++ '@' :: b))) = some (a ++ '@' :: b) := by
  have hne : a ++ ':' :: (d ++ '@' :: b) ≠ [] := by
    cases a <;> simp
  simp only [normalizeJid]
  rw [if_neg hne, replaceDeviceSuffix_strip a d b ha hd hdig]
  simp

theorem takeWhile_takeWhile_spec (p q : Char → Bool) (s : JStr) :
    (∃ t, s = (s.takeWhile p).takeWhile q ++ t) ∧
      ∀ c ∈ (s.takeWhile p).takeWhile q, p c = true ∧ q c = true := by
  constructor
  · have h2 : (s.takeWhile p).takeWhile q ++ (s.takeWhile p).dropWhile q = s.takeWhile p :=
      List.takeWhile_append_dropWhile _ _
    refine ⟨(s.takeWhile p).dropWhile q ++ s.dropWhile p, ?_⟩
    rw [← List.append_assoc, h2, List.takeWhile_append_dropWhile]
  · intro c hc
    have hq : q c = true := List.mem_takeWhile_imp hc
    have hc' : c ∈ s.takeWhile p := (List.takeWhile_sublist q).mem hc
    exact ⟨List.mem_takeWhile_imp hc', hq⟩

/-- C6 counterexample: the claim says that for unresolvable input both
functions yield an empty string and that `normalize` strips any
device-suffix segment.  In fact `normalizeJid(null)` is `null`, not `""`,
and a device suffix with no following domain separator is not stripped:
`normalizeJid("1234:5")` keeps the `":5"` segment. -/
theorem c6_counterexample :
    normalizeJid none = none ∧ normalizeJid none ≠ some [] ∧
    normalizeJid (some "1234:5".toList) = some "1234:5@s.whatsapp.net".toList ∧
    normalizeJid (some "1234:5".toList) ≠ some "1234@s.whatsapp.net".toList := by
  decide

/-- C6 (amended): `normalizeJid` and `getPhoneFromJid` are pure total
functions.  `getPhoneFromJid` yields `""` on null input and otherwise
extracts the prefix before any domain (`'@'`) or device (`':'`) separator.
`normalizeJid` yields `null` (not an empty string) on null or empty input;
on other input it strips a device-suffix segment only when the segment is
immediately followed by the domain separator, and appends the default
domain suffix when the input has no domain separator (leaving a domainless
device suffix in place). -/
theorem c6_identity_resolver :
    normalizeJid none = none ∧
    normalizeJid (some []) = none ∧
    getPhoneFromJid none = [] ∧
    (∀ s : JStr, (∃ t, s = getPhoneFromJid (some s) ++ t) ∧
      ∀ c ∈ getPhoneFromJid (some s), c ≠ '@' ∧ c ≠ ':') ∧
    (∀ s : JStr, s ≠ [] → '@' ∉ s → normalizeJid (some s) = some (s ++ defaultDomain)) ∧
    (∀ a d b : JStr, ':' ∉ a → d ≠ [] → (∀ c ∈ d, c.isDigit = true) →
      normalizeJid (some (a ++ ':' :: (d ++ '@' :: b))) = some (a ++ '@' :: b)) := by
  refine ⟨rfl, rfl, rfl, ?_, normalizeJid_no_at, normalizeJid_strip⟩
  intro s
  have h := takeWhile_takeWhile_spec (fun c => decide (c ≠ '@')) (fun c => decide (c ≠ ':')) s
  constructor
  · exact h.1
  · intro c hc
    have h' := h.2 c hc
    constructor
    · simpa using h'.1
    · simpa using h'.2

/-- C6 witness: the amended theorem applied at concrete inputs. -/
theorem c6_witness :
    normalizeJid (some "123".toList) = some ("123".toList ++ defaultDomain) ∧
    normalizeJid (some ("12".toList ++ ':' :: ("34".toList ++ '@' :: "x".toList)))
      = some ("12".toList ++ '@' :: "x".toList) :=
  ⟨c6_identity_resolver.2.2.2.2.1 _ (by decide) (by decide),
   c6_identity_resolver.2.2.2.2.2 _ _ _ (by decide) (by decide) (by decide)⟩

theorem drop_two_cons_cons (c1 c2 : Char) (l : JStr) :
    List.drop 2 (c1 :: c2 :: l) = l := rfl

theorem formatUnknownNumber_nine (ddd rest : JStr) (h2 : ddd.length = 2)
    (h9 : rest.length = 9) :
    formatUnknownNumber ('5' :: '5' :: (ddd ++ rest))
      = ('(' :: ddd) ++ (')' :: ' ' :: rest.take 5) ++ ('-' :: rest.drop 5) := by
  have hpre : "55".toList.isPrefixOf ('5' :: '5' :: (ddd ++ rest)) = true := by
    simp [List.isPrefixOf]
  have hlen : 12 ≤ ('5' :: '5' :: (ddd ++ rest)).length := by simp [h2, h9]
  have hassoc : ('5' :: '5' :: ddd) ++ rest = '5' :: '5' :: (ddd ++ rest) := by simp
  have hdrop4 : ('5' :: '5' :: (ddd ++ rest)).drop 4 = rest := by
    rw [← hassoc, List.drop_left']
    simp [h2]
  have hslice : jsSlice ('5' :: '5' :: (ddd ++ rest)) 2 4 = ddd := by
    unfold jsSlice
    rw [drop_two_cons_cons]
    exact List.take_left' h2
  simp only [formatUnknownNumber]
  rw [if_pos ⟨hpre, hlen⟩, hslice, hdrop4, if_pos h9]
  simp

theorem formatUnknownNumber_eight (ddd rest : JStr) (h2 : ddd.length = 2)
    (h8 : rest.length = 8) :
    formatUnknownNumber ('5' :: '5' :: (ddd ++ rest))
      = ('(' :: ddd) ++ (')' :: ' ' :: rest.take 4) ++ ('-' :: rest.drop 4) := by
  have hpre : "55".toList.isPrefixOf ('5' :: '5' :: (ddd ++ rest)) = true := by
    simp [List.isPrefixOf]
  have hlen : 12 ≤ ('5' :: '5' :: (ddd ++ rest)).length := by simp [h2, h8]
  have hassoc : ('5' :: '5' :: ddd) ++ rest = '5' :: '5' :: (ddd ++ rest) := by simp
  have hdrop4 : ('5' :: '5' :: (ddd ++ rest)).drop 4 = rest := by
    rw [← hassoc, List.drop_left']
    simp [h2]
  have hslice : jsSlice ('5' :: '5' :: (ddd ++ rest)) 2 4 = ddd := by
    unfold jsSlice
    rw [drop_two_cons_cons]
    exact List.take_left' h2
  have h98 : rest.length ≠ 9 := by omega
  simp only [formatUnknownNumber]
  rw [if_pos ⟨hpre, hlen⟩, hslice, hdrop4, if_neg h98, if_pos h8]
  simp

/-- C9: with no stored directory, push-name or external-lookup name, the
synthesized fallback for the ordinary number `5511987654321` is
`"(11) 98765-4321"`; in general a number with the `55` country code and at
least 12 digits is rendered as area code plus `5+4` groups for a 9-digit
local part and `4+4` groups for an 8-digit local part, and every other
number is rendered as a bare `"+"`-prefixed string. -/
theorem c9_fallback_formatting :
    ((getContactInfo {} noOracles "5511987654321@s.whatsapp.net".toList).name
      = some "(11) 98765-4321".toList) ∧
    (∀ ddd rest : JStr, ddd.length = 2 → rest.length = 9 →
      formatUnknownNumber ('5' :: '5' :: (ddd ++ rest))
        = ('(' :: ddd) ++ (')' :: ' ' :: rest.take 5) ++ ('-' :: rest.drop 5)) ∧
    (∀ ddd rest : JStr, ddd.length = 2 → rest.length = 8 →
      formatUnknownNumber ('5' :: '5' :: (ddd ++ rest))
        = ('(' :: ddd) ++ (')' :: ' ' :: rest.take 4) ++ ('-' :: rest.drop 4)) ∧
    (∀ n : JStr, ¬("55".toList.isPrefixOf n ∧ 12 ≤ n.length) →
      formatUnknownNumber n = '+' :: n) ∧
    (∀ n : JStr, "55".toList.isPrefixOf n → 12 ≤ n.length →
      (n.drop 4).length ≠ 9 → (n.drop 4).length ≠ 8 →
      formatUnknownNumber n = '+' :: n) := by
  refine ⟨by decide, formatUnknownNumber_nine, formatUnknownNumber_eight, ?_, ?_⟩
  · intro n hn
    simp only [formatUnknownNumber]
    rw [if_neg hn]
  · intro n hpre hlen h9 h8
    simp only [formatUnknownNumber]
    rw [if_pos ⟨hpre, hlen⟩, if_neg h9, if_neg h8]

/-- C9 witness: the general formatting clauses applied at the concrete
scenario number. -/
theorem c9_witness :
    formatUnknownNumber ('5' :: '5' :: ("11".toList ++ "987654321".toList))
      = ('(' :: "11".toList) ++ (')' :: ' ' :: "987654321".toList.take 5)
        ++ ('-' :: "987654321".toList.drop 5) ∧
    formatUnknownNumber "123".toList = '+' :: "123".toList :=
  ⟨c9_fallback_formatting.2.1 _ _ (by decide) (by decide),
   c9_fallback_formatting.2.2.2.1 _ (by decide)⟩

/-! ### C5: name resolution is total -/

theorem resolveFallback_isSome (st : AccStore) (o : Oracles) (jid ph : JStr)
    (nm : Option JStr) : ∃ s, (resolveFallback st o jid ph nm).1 = some s := by
  unfold resolveFallback
  by_cases h : truthy nm = true
  · rw [if_pos h]
    cases nm with
    | none => simp [truthy] at h
    | some s => exact ⟨s, rfl⟩
  · rw [if_neg h]
    by_cases hg : "@g.us".toList.isSuffixOf jid = true
    · rw [if_pos hg]
      rcases hgm : o.groupMetadata jid with _ | subject <;> exact ⟨_, rfl⟩
    · rw [if_neg hg]
      by_cases hl : "@lid".toList.isSuffixOf jid = true
      · rw [if_pos hl]
        exact ⟨_, rfl⟩
      · rw [if_neg hl]
        by_cases hn : "@newsletter".toList.isSuffixOf jid = true
        · rw [if_pos hn]
          exact ⟨_, rfl⟩
        · rw [if_neg hn]
          exact ⟨_, rfl⟩

/-- C5: name resolution is a deterministic total function — it is a pure
function of the account state and the external-lookup oracles, and for
every identifier `getContactInfo` terminates with a non-null name. -/
theorem c5_resolution_total (st : AccStore) (o : Oracles) (jid : JStr) :
    ∃ s, (getContactInfo st o jid).name = some s := by
  obtain ⟨s, hs⟩ :=
    resolveFallback_isSome st o jid (getPhoneFromJid (some jid)) (resolveNameSteps st o jid)
  simp only [getContactInfo]
  rcases hrf : resolveFallback st o jid (getPhoneFromJid (some jid))
      (resolveNameSteps st o jid) with ⟨nm, st'⟩
  rw [hrf] at hs
  exact ⟨s, hs⟩

/-! ### C3: ContactDirectory merge semantics -/

theorem jsOr_absorb (a b : Option JStr) : jsOr a (jsOr a b) = jsOr a b := by
  by_cases h : truthy a = true
  · rw [jsOr_of_truthy _ h, jsOr_of_truthy _ h]
  · rw [jsOr_of_falsy _ (by simpa using h), jsOr_of_falsy _ (by simpa using h)]

theorem mget_mset_mset_first {K V : Type} [DecidableEq K] (m : List (K × V))
    (k1 k2 : K) (v : V) : mget (mset (mset m k1 v) k2 v) k1 = some v := by
  by_cases h : k2 = k1
  · subst h
    exact mget_mset_self _ _ _
  · rw [mget_mset_ne _ _ _ _ h]
    exact mget_mset_self _ _ _

theorem mset_pair_idem {K V : Type} [DecidableEq K] (m : List (K × V))
    (k1 k2 : K) (v : V) :
    mset (mset (mset (mset m k1 v) k2 v) k1 v) k2 v = mset (mset m k1 v) k2 v := by
  rw [mset_eq_of_mget _ _ _ (mget_mset_mset_first m k1 k2 v), mset_mset_same]

theorem contactsUpsertOne_idem (st : AccStore) (c : ContactPayload) :
    contactsUpsertOne (contactsUpsertOne st c) c = contactsUpsertOne st c := by
  by_cases h : truthy (jsOr (jsOr c.name c.notify) c.verifiedName) = true
  · simp only [contactsUpsertOne, h, if_true, mset_pair_idem]
  · simp only [contactsUpsertOne, h, if_false, Bool.false_eq_true]

theorem contactsUpdateOne_unfold_pos (st : AccStore) (u : ContactPayload)
    (h : truthy (jsOr (jsOr u.name u.notify)
      (((mget st.contacts (some u.id)).getD {}).name)) = true) :
    contactsUpdateOne st u =
      { st with contacts :=
          (mset st.contacts (some u.id)
            { (mget st.contacts (some u.id)).getD {} with
                name := jsOr (jsOr u.name u.notify)
                  (((mget st.contacts (some u.id)).getD {}).name)
                notify := jsOr u.notify
                  (((mget st.contacts (some u.id)).getD {}).notify) }) } := by
  simp only [contactsUpdateOne, h, if_true]

theorem contactsUpdateOne_idem (st : AccStore) (u : ContactPayload) :
    contactsUpdateOne (contactsUpdateOne st u) u = contactsUpdateOne st u := by
  by_cases h : truthy (jsOr (jsOr u.name u.notify)
      (((mget st.contacts (some u.id)).getD {}).name)) = true
  · rw [contactsUpdateOne_unfold_pos st u h]
    have hget : mget (mset st.contacts (some u.id)
        ({ (mget st.contacts (some u.id)).getD {} with
            name := jsOr (jsOr u.name u.notify)
              (((mget st.contacts (some u.id)).getD {}).name)
            notify := jsOr u.notify
              (((mget st.contacts (some u.id)).getD {}).notify) } : ContactRec))
        (some u.id) = some _ := mget_mset_self _ _ _
    simp only [contactsUpdateOne, hget, Option.getD_some, jsOr_absorb]
    rw [if_pos (by simpa [jsOr_absorb] using h)]
    simp [mset_mset_same]
  · have h1 : contactsUpdateOne st u = st := by
      simp only [contactsUpdateOne, h, if_false, Bool.false_eq_true]
    rw [h1, h1]

theorem contactsUpsertOne_explicit (st : AccStore) (c : ContactPayload)
    (h : truthy c.name = true) :
    mget (contactsUpsertOne st c).contacts (some c.id)
      = some ⟨c.name, c.notify, c.verifiedName⟩ := by
  have hn : jsOr (jsOr c.name c.notify) c.verifiedName = c.name := by
    rw [jsOr_of_truthy _ h, jsOr_of_truthy _ h]
  simp only [contactsUpsertOne, hn, h, if_true]
  exact mget_mset_mset_first (K := Option JStr) (V := ContactRec) _ _ _ _

theorem contactsUpsertOne_notify (st : AccStore) (c : ContactPayload)
    (h : truthy c.name = false) (ho : truthy c.notify = true) :
    mget (contactsUpsertOne st c).contacts (some c.id)
      = some ⟨c.notify, c.notify, c.verifiedName⟩ := by
  have hn : jsOr (jsOr c.name c.notify) c.verifiedName = c.notify := by
    rw [jsOr_of_falsy _ h, jsOr_of_truthy _ ho]
  simp only [contactsUpsertOne, hn, ho, if_true]
  exact mget_mset_mset_first (K := Option JStr) (V := ContactRec) _ _ _ _

theorem contactsUpsertOne_verified (st : AccStore) (c : ContactPayload)
    (h : truthy c.name = false) (ho : truthy c.notify = false)
    (hv : truthy c.verifiedName = true) :
    mget (contactsUpsertOne st c).contacts (some c.id)
      = some ⟨c.verifiedName, c.notify, c.verifiedName⟩ := by
  have hn : jsOr (jsOr c.name c.notify) c.verifiedName = c.verifiedName := by
    rw [jsOr_of_falsy _ h, jsOr_of_falsy _ ho]
  simp only [contactsUpsertOne, hn, hv, if_true]
  exact mget_mset_mset_first (K := Option JStr) (V := ContactRec) _ _ _ _

theorem contactsUpdateOne_notify_override (st : AccStore) (u : ContactPayload)
    (hn : truthy u.name = false) (ho : truthy u.notify = true) :
    ∃ r, mget (contactsUpdateOne st u).contacts (some u.id) = some r ∧
      r.name = u.notify := by
  have hchain : jsOr (jsOr u.name u.notify)
      (((mget st.contacts (some u.id)).getD {}).name) = u.notify := by
    rw [jsOr_of_falsy _ hn, jsOr_of_truthy _ ho]
  have ht : truthy (jsOr (jsOr u.name u.notify)
      (((mget st.contacts (some u.id)).getD {}).name)) = true := by
    rw [hchain]; exact ho
  rw [contactsUpdateOne_unfold_pos st u ht]
  exact ⟨_, mget_mset_self _ _ _, by simp [hchain]⟩

/-- C3 counterexample: the claim says an existing explicit name is kept
over a notify name supplied by a later partial update.  In fact
`contacts.update` computes `update.name || update.notify || existing.name`,
so a later notify name overwrites a stored explicit name: starting from a
directory holding explicit name `"Alice"`, an update carrying only
`notify: "Bob"` leaves the stored name `"Bob"`. -/
theorem c3_counterexample :
    mget (contactsUpdateOne
        { contacts := [(some "a@s.whatsapp.net".toList,
            ⟨some "Alice".toList, none, none⟩)] }
        ⟨"a@s.whatsapp.net".toList, none, some "Bob".toList, none⟩).contacts
      (some "a@s.whatsapp.net".toList)
      = some ⟨some "Bob".toList, some "Bob".toList, none⟩ ∧
    (mget (contactsUpdateOne
        { contacts := [(some "a@s.whatsapp.net".toList,
            ⟨some "Alice".toList, none, none⟩)] }
        ⟨"a@s.whatsapp.net".toList, none, some "Bob".toList, none⟩).contacts
      (some "a@s.whatsapp.net".toList)).map (fun r => r.name)
      ≠ some (some "Alice".toList) := by
  decide

/-- C3 (amended): merging into the ContactDirectory is idempotent — both
the batch-upsert merge and the incremental-update merge applied twice give
the state of applying them once — and within one upserted record the name
precedence is explicit > notify > verified.  However, an incremental
update resolves `update.name || update.notify || existing.name`: a later
notify name overrides a previously stored explicit name. -/
theorem c3_directory_merge :
    (∀ (st : AccStore) (c : ContactPayload),
      contactsUpsertOne (contactsUpsertOne st c) c = contactsUpsertOne st c) ∧
    (∀ (st : AccStore) (u : ContactPayload),
      contactsUpdateOne (contactsUpdateOne st u) u = contactsUpdateOne st u) ∧
    (∀ (st : AccStore) (c : ContactPayload), truthy c.name = true →
      mget (contactsUpsertOne st c).contacts (some c.id)
        = some ⟨c.name, c.notify, c.verifiedName⟩) ∧
    (∀ (st : AccStore) (c : ContactPayload), truthy c.name = false →
      truthy c.notify = true →
      mget (contactsUpsertOne st c).contacts (some c.id)
        = some ⟨c.notify, c.notify, c.verifiedName⟩) ∧
    (∀ (st : AccStore) (c : ContactPayload), truthy c.name = false →
      truthy c.notify = false → truthy c.verifiedName = true →
      mget (contactsUpsertOne st c).contacts (some c.id)
        = some ⟨c.verifiedName, c.notify, c.verifiedName⟩) ∧
    (∀ (st : AccStore) (u : ContactPayload), truthy u.name = false →
      truthy u.notify = true →
      ∃ r, mget (contactsUpdateOne st u).contacts (some u.id) = some r ∧
        r.name = u.notify) :=
  ⟨contactsUpsertOne_idem, contactsUpdateOne_idem, contactsUpsertOne_explicit,
   contactsUpsertOne_notify, contactsUpsertOne_verified, contactsUpdateOne_notify_override⟩

/-- C3 witness: the amended theorem applied at a concrete contact. -/
theorem c3_witness :
    truthy (some "Ana".toList) = true ∧
    mget (contactsUpsertOne {}
        ⟨"x@s.whatsapp.net".toList, some "Ana".toList, none, none⟩).contacts
      (some "x@s.whatsapp.net".toList) = some ⟨some "Ana".toList, none, none⟩ :=
  ⟨by decide, c3_directory_merge.2.2.1 {} _ (by decide)⟩

/-! ### C4: MessageStore dedup -/

/-- The per-chat message log. -/
def msgsAt (st : AccStore) (jid : JStr) : List Msg :=
  (mget st.messages (some jid)).getD []

theorem appendMsgDedup_mem (st : AccStore) (jid : JStr) (m : Msg) :
    ∃ l, mget (appendMsgDedup st jid m).messages (some jid) = some l ∧
      l.any (fun m2 => m2.key.id = m.key.id) = true := by
  rcases hm : mget st.messages (some jid) with _ | l0
  · have hhas : mhas st.messages (some jid) = false := by simp [mhas, hm]
    simp only [appendMsgDedup, mhas, hm, Option.isSome_none, Bool.not_eq_true,
      Option.getD_none]
    refine ⟨[m], ?_, by simp⟩
    simp [mget_mset_self, hm]
  · have hhas : mhas st.messages (some jid) = true := by simp [mhas, hm]
    simp only [appendMsgDedup, hhas, not_true, if_false, hm, Option.getD_some]
    by_cases hany : l0.any (fun m2 => m2.key.id = m.key.id) = true
    · rw [if_pos hany]
      exact ⟨l0, hm, hany⟩
    · rw [if_neg hany]
      refine ⟨l0 ++ [m], mget_mset_self _ _ _, ?_⟩
      simp

theorem appendMsgDedup_idem (st : AccStore) (jid : JStr) (m : Msg) :
    appendMsgDedup (appendMsgDedup st jid m) jid m = appendMsgDedup st jid m := by
  obtain ⟨l, hl, hany⟩ := appendMsgDedup_mem st jid m
  set st1 := appendMsgDedup st jid m with hst1
  have hhas : mhas st1.messages (some jid) = true := by simp [mhas, hl]
  simp only [appendMsgDedup, hhas, not_true, if_false, hl, Option.getD_some, hany,
    if_true]

theorem msgsAt_appendMsgDedup (st : AccStore) (jid : JStr) (m : Msg) :
    msgsAt (appendMsgDedup st jid m) jid =
      if ((msgsAt st jid).any fun m2 => m2.key.id = m.key.id) = true
      then msgsAt st jid else msgsAt st jid ++ [m] := by
  rcases hm : mget st.messages (some jid) with _ | l0
  · have hhas : mhas st.messages (some jid) = false := by simp [mhas, hm]
    simp only [msgsAt, appendMsgDedup, mhas, hm, Option.isSome_none, Bool.not_eq_true,
      Option.getD_none, mget_mset_self, Option.getD_some]
    simp [mget_mset_self, mset_mset_same]
  · have hhas : mhas st.messages (some jid) = true := by simp [mhas, hm]
    simp only [msgsAt, appendMsgDedup, hhas, not_true, if_false, hm, Option.getD_some]
    by_cases hany : l0.any (fun m2 => m2.key.id = m.key.id) = true
    · simp [hany, hm]
    · simp [hany, mget_mset_self]

/-! ### Frame lemmas: name/avatar resolution never touches the message or
chat stores -/

theorem getProfilePicture_frame (st : AccStore) (o : Oracles) (jid : JStr) :
    (getProfilePicture st o jid).2.messages = st.messages ∧
      (getProfilePicture st o jid).2.chats = st.chats := by
  rcases hm : mget st.profilePics (some jid) with _ | v
  · rcases ho : o.profilePicture jid with _ | url <;>
      simp [getProfilePicture, hm, ho]
  · simp [getProfilePicture, hm]

theorem resolveFallback_frame (st : AccStore) (o : Oracles) (jid ph : JStr)
    (nm : Option JStr) :
    (resolveFallback st o jid ph nm).2.messages = st.messages ∧
      (resolveFallback st o jid ph nm).2.chats = st.chats := by
  unfold resolveFallback
  by_cases h : truthy nm = true
  · simp [h]
  · rw [if_neg h]
    by_cases hg : "@g.us".toList.isSuffixOf jid = true
    · rw [if_pos hg]
      rcases hgm : o.groupMetadata jid with _ | subject <;> exact ⟨rfl, rfl⟩
    · rw [if_neg hg]
      by_cases hl : "@lid".toList.isSuffixOf jid = true
      · rw [if_pos hl]
        exact ⟨rfl, rfl⟩
      · rw [if_neg hl]
        by_cases hn : "@newsletter".toList.isSuffixOf jid = true
        · rw [if_pos hn]
          exact ⟨rfl, rfl⟩
        · rw [if_neg hn]
          exact ⟨rfl, rfl⟩

theorem getContactInfo_frame (st : AccStore) (o : Oracles) (jid : JStr) :
    (getContactInfo st o jid).st.messages = st.messages ∧
      (getContactInfo st o jid).st.chats = st.chats := by
  have h1 := resolveFallback_frame st o jid (getPhoneFromJid (some jid))
    (resolveNameSteps st o jid)
  have h2 := getProfilePicture_frame
    (resolveFallback st o jid (getPhoneFromJid (some jid))
      (resolveNameSteps st o jid)).2 o jid
  exact ⟨h2.1.trans h1.1, h2.2.trans h1.2⟩

theorem foldl_formatChatStep_frame (o : Oracles) (l : List ChatRec) :
    ∀ p : List FormattedChat × AccStore,
      (l.foldl (formatChatStep o) p).2.messages = p.2.messages ∧
        (l.foldl (formatChatStep o) p).2.chats = p.2.chats := by
  induction l with
  | nil => intro p; exact ⟨rfl, rfl⟩
  | cons c cs ih =>
    intro p
    rw [List.foldl_cons]
    have h1 : (formatChatStep o p c).2.messages = p.2.messages ∧
        (formatChatStep o p c).2.chats = p.2.chats := by
      by_cases h : c.lastMessage = none ∧ c.conversationTimestamp = 0
      · simp [formatChatStep, h]
      · simp only [formatChatStep, if_neg h]
        exact getContactInfo_frame p.2 o c.id
    have h2 := ih (formatChatStep o p c)
    exact ⟨h2.1.trans h1.1, h2.2.trans h1.2⟩

theorem getFormattedChats_frame (st : AccStore) (o : Oracles) :
    (getFormattedChats st o).2.messages = st.messages ∧
      (getFormattedChats st o).2.chats = st.chats := by
  simp only [getFormattedChats]
  exact foldl_formatChatStep_frame o (st.chats.map (·.2)) ([], st)

theorem updateChatInList_messages (st : AccStore) (o : Oracles) (jid : JStr)
    (m : Msg) : (updateChatInList st o jid m).1.messages = st.messages := by
  simp only [updateChatInList]
  exact (getFormattedChats_frame _ o).1

theorem sendMessageRecord_msgs (st : AccStore) (o : Oracles) (jid : JStr) (m : Msg) :
    msgsAt (sendMessageRecord st o jid m).1 jid = msgsAt st jid ++ [m] := by
  simp only [sendMessageRecord, msgsAt]
  rcases hm : mget st.messages (some jid) with _ | l0
  · have hhas : mhas st.messages (some jid) = false := by simp [mhas, hm]
    simp only [mhas, hm, Option.isSome_none, Bool.not_eq_true, if_true,
      Option.getD_none, mget_mset_self, Option.getD_some]
    rw [updateChatInList_messages]
    simp [mget_mset_self, mset_mset_same]
  · have hhas : mhas st.messages (some jid) = true := by simp [mhas, hm]
    simp only [mhas, hm, Option.isSome_some, not_true, if_false, Option.getD_some]
    rw [updateChatInList_messages]
    simp [mget_mset_self]

/-- C4 counterexample: the claim extends the (chat id, message id)
uniqueness invariant to the recording of outbound sent messages.  In fact
the `send-message` handler pushes the sent message with no duplicate
check: appending a message once through the dedup'd upsert path and then
recording the same (chat id, message id) through the sent path leaves a
log of length 2, not 1. -/
theorem c4_counterexample :
    (msgsAt (sendMessageRecord
        (messagesUpsertHandler {} noOracles
          [⟨⟨"1@s.whatsapp.net".toList, true, "A".toList⟩, none, 5, none⟩]
          UpsertType.append).1
        noOracles "1@s.whatsapp.net".toList
        ⟨⟨"1@s.whatsapp.net".toList, true, "A".toList⟩, none, 5, none⟩).1
      "1@s.whatsapp.net".toList).length = 2 ∧
    (msgsAt (sendMessageRecord
        (messagesUpsertHandler {} noOracles
          [⟨⟨"1@s.whatsapp.net".toList, true, "A".toList⟩, none, 5, none⟩]
          UpsertType.append).1
        noOracles "1@s.whatsapp.net".toList
        ⟨⟨"1@s.whatsapp.net".toList, true, "A".toList⟩, none, 5, none⟩).1
      "1@s.whatsapp.net".toList).length ≠ 1 := by
  decide

/-- C4 (amended): the ensure-then-dedup append shared by the live
`messages.upsert` path and the bulk history-sync path is idempotent — a
second append of an already-present (chat id, message id) changes nothing,
so the log grows by exactly one across both appends, silently and with no
error — and is characterized by the duplicate check on the stored log.
The outbound sent-message recording, however, appends unconditionally. -/
theorem c4_message_dedup :
    (∀ (st : AccStore) (jid : JStr) (m : Msg),
      appendMsgDedup (appendMsgDedup st jid m) jid m = appendMsgDedup st jid m) ∧
    (∀ (st : AccStore) (jid : JStr) (m : Msg),
      msgsAt (appendMsgDedup st jid m) jid =
        if ((msgsAt st jid).any fun m2 => m2.key.id = m.key.id) = true
        then msgsAt st jid else msgsAt st jid ++ [m]) ∧
    (∀ (st : AccStore) (o : Oracles) (jid : JStr) (m : Msg),
      msgsAt (sendMessageRecord st o jid m).1 jid = msgsAt st jid ++ [m]) :=
  ⟨appendMsgDedup_idem, msgsAt_appendMsgDedup, sendMessageRecord_msgs⟩

/-! ### C10: fetching a chat's messages marks it read -/

/-- C10: for a connected account, handling `get-messages` resets the
requested chat's unread counter to zero when the chat exists in the chat
store, leaves every other chat entry untouched, and leaves the chat store
unchanged when the chat id is unknown. -/
theorem c10_get_messages_marks_read (st : AccStore) (o : Oracles) (jid : JStr)
    (hconn : st.connectionState = .connected) :
    (mget (getMessagesHandler st o jid).1.chats (some jid)
      = (mget st.chats (some jid)).map (fun c => { c with unreadCount := 0 })) ∧
    (∀ k, k ≠ some jid →
      mget (getMessagesHandler st o jid).1.chats k = mget st.chats k) ∧
    (mget st.chats (some jid) = none →
      (getMessagesHandler st o jid).1.chats = st.chats) := by
  have hframe := (getContactInfo_frame st o jid).2
  have hne : ¬ st.connectionState ≠ ConnState.connected := by simp [hconn]
  simp only [getMessagesHandler, if_neg hne]
  rcases hc : mget (getContactInfo st o jid).st.chats (some jid) with _ | c
  · rw [hframe] at hc
    refine ⟨?_, ?_, fun _ => hframe⟩
    · rw [hframe, hc]
      rfl
    · intro k _
      rw [hframe]
  · rw [hframe] at hc
    refine ⟨?_, ?_, ?_⟩
    · rw [mget_mset_self, hc]
      rfl
    · intro k hk
      rw [mget_mset_ne _ _ _ _ (fun hh => hk hh.symm), hframe]
    · intro hnone
      rw [hnone] at hc
      exact absurd hc (by simp)

/-- The concrete store for the C10 witness: a connected account holding
one chat with three unread messages. -/
def c10DemoStore : AccStore :=
  { connectionState := .connected,
    chats := [(some "7@s.whatsapp.net".toList,
      { id := "7@s.whatsapp.net".toList, conversationTimestamp := 9,
        unreadCount := 3 })] }

/-- C10 witness: the theorem applied at a concrete connected account whose
chat store holds one chat with a positive unread counter. -/
theorem c10_witness :
    c10DemoStore.connectionState = .connected ∧
    mget (getMessagesHandler c10DemoStore noOracles
        "7@s.whatsapp.net".toList).1.chats (some "7@s.whatsapp.net".toList)
      = (mget c10DemoStore.chats (some "7@s.whatsapp.net".toList)).map
          (fun c => { c with unreadCount := 0 }) :=
  ⟨rfl, (c10_get_messages_marks_read _ noOracles _ rfl).1⟩

/-! ### C2: terminal logout -/

/-- C2 counterexample: the claim says a connection close with the
logged-out reason code clears all in-account stores.  In fact the close
branch purges credentials and persists the registry without a phone
number but does not clear the chat (or message, contact, picture) stores:
a store with a nonempty chat map keeps it across the logged-out close. -/
theorem c2_counterexample :
    ((connectionCloseHandler
        { connectionState := .connected, hasSock := true, authCreds := true,
          phoneNumber := some "551199".toList,
          chats := [(some "9@s.whatsapp.net".toList,
            { id := "9@s.whatsapp.net".toList, conversationTimestamp := 4 })] }
        (some loggedOutCode)).1.authCreds = false) ∧
    ((connectionCloseHandler
        { connectionState := .connected, hasSock := true, authCreds := true,
          phoneNumber := some "551199".toList,
          chats := [(some "9@s.whatsapp.net".toList,
            { id := "9@s.whatsapp.net".toList, conversationTimestamp := 4 })] }
        (some loggedOutCode)).1.savedPhone = some none) ∧
    ((connectionCloseHandler
        { connectionState := .connected, hasSock := true, authCreds := true,
          phoneNumber := some "551199".toList,
          chats := [(some "9@s.whatsapp.net".toList,
            { id := "9@s.whatsapp.net".toList, conversationTimestamp := 4 })] }
        (some loggedOutCode)).1.chats ≠ []) := by
  decide

/-- C2 (amended): the explicit `logout-account` command (for an account
with a live socket) clears the chat, message, contact and profile-picture
stores, purges credential material, nulls the phone number and persists
the registry record without it.  A connection close whose disconnect
reason is the logged-out code also purges credentials and persists the
registry without a phone number — but leaves the in-account stores in
place.  Any other close reason only marks the account disconnected and
schedules a reconnection. -/
theorem c2_terminal_logout :
    (∀ st : AccStore, st.hasSock = true →
      (logoutAccountHandler st).1.chats = [] ∧
      (logoutAccountHandler st).1.messages = [] ∧
      (logoutAccountHandler st).1.contacts = [] ∧
      (logoutAccountHandler st).1.profilePics = [] ∧
      (logoutAccountHandler st).1.authCreds = false ∧
      (logoutAccountHandler st).1.phoneNumber = none ∧
      (logoutAccountHandler st).1.savedPhone = some none) ∧
    (∀ st : AccStore,
      (connectionCloseHandler st (some loggedOutCode)).1.authCreds = false ∧
      (connectionCloseHandler st (some loggedOutCode)).1.phoneNumber = none ∧
      (connectionCloseHandler st (some loggedOutCode)).1.savedPhone = some none ∧
      (connectionCloseHandler st (some loggedOutCode)).1.connectionState
        = .disconnected ∧
      (connectionCloseHandler st (some loggedOutCode)).1.chats = st.chats ∧
      (connectionCloseHandler st (some loggedOutCode)).1.messages = st.messages ∧
      (connectionCloseHandler st (some loggedOutCode)).1.contacts = st.contacts ∧
      (connectionCloseHandler st (some loggedOutCode)).1.profilePics
        = st.profilePics) ∧
    (∀ (st : AccStore) (code : Option Int), code ≠ some loggedOutCode →
      (connectionCloseHandler st code).1 = { st with connectionState := .disconnected } ∧
      (connectionCloseHandler st code).2
        = [Ev.accountStatus, Ev.accountsUpdate, Ev.reconnectScheduled]) := by
  refine ⟨?_, ?_, ?_⟩
  · intro st h
    simp [logoutAccountHandler, h]
  · intro st
    simp [connectionCloseHandler]
  · intro st code h
    simp [connectionCloseHandler, h]

/-- C2 witness: the amended theorem applied at a concrete account with a
live socket and at a recoverable close. -/
theorem c2_witness :
    ({ hasSock := true } : AccStore).hasSock = true ∧
    (logoutAccountHandler ({ hasSock := true } : AccStore)).1.chats = [] ∧
    ((none : Option Int) ≠ some loggedOutCode) ∧
    (connectionCloseHandler ({ hasSock := true } : AccStore) none).2
      = [Ev.accountStatus, Ev.accountsUpdate, Ev.reconnectScheduled] :=
  ⟨rfl, (c2_terminal_logout.1 _ rfl).1, by decide,
   (c2_terminal_logout.2.2 _ none (by decide)).2⟩

/-! ### C8: the history window query -/

theorem takeLast_length_le {α : Type} (n : Nat) (l : List α) :
    (takeLast n l).length ≤ n := by
  simp only [takeLast, List.length_drop]
  omega

/-- C8 counterexample: the claim windows the filtered log to the most
recent `maxCount` entries.  In fact the handler takes the last `maxCount`
entries in insertion order and only then sorts ascending: on a log stored
as [timestamp 100000, timestamp 50000] (a live message followed by a
later-synced older one), a window of size 1 over the whole range returns
the entry with timestamp 50000, not the most recent one. -/
theorem c8_counterexample :
    (historyWindow
        [⟨⟨"1@s.whatsapp.net".toList, false, "a".toList⟩, none, 100000, none⟩,
         ⟨⟨"1@s.whatsapp.net".toList, false, "b".toList⟩, none, 50000, none⟩]
        200000 2 1).messages.map (fun m => m.timestamp) = [50000] ∧
    (historyWindow
        [⟨⟨"1@s.whatsapp.net".toList, false, "a".toList⟩, none, 100000, none⟩,
         ⟨⟨"1@s.whatsapp.net".toList, false, "b".toList⟩, none, 50000, none⟩]
        200000 2 1).messages.map (fun m => m.timestamp) ≠ [100000] := by
  decide

/-- The two messages of the C8 day-window scenario: one timestamped `now`,
one two days older, stored in that insertion order. -/
def c8LiveMsg (now : Int) : Msg :=
  ⟨⟨"1@s.whatsapp.net".toList, false, "new".toList⟩, none, now, none⟩

def c8OldMsg (now : Int) : Msg :=
  ⟨⟨"1@s.whatsapp.net".toList, false, "old".toList⟩, none, now - 172800, none⟩

/-- C8 (amended): the history window keeps exactly the stored messages
with timestamp ≥ `now - days·86400`, windows them to the last
`limit || 100` entries in insertion order (the most recent ones whenever
the log is in chronological order), returns them sorted ascending by
timestamp, and reports `total` as the number of messages matching the
timestamp filter; in particular a `days = 1` window over messages
timestamped `now` and `now - 2 days` returns only the first, with
`total = 1`. -/
theorem c8_history_window :
    (∀ (msgs : List Msg) (now days : Int) (limit : Nat),
      List.Sorted fmsgLeRel (historyWindow msgs now days limit).messages ∧
      (historyWindow msgs now days limit).messages.Perm
        ((takeLast (if limit = 0 then 100 else limit)
          (msgs.filter (fun m =>
            decide (now - days * (24 * 60 * 60) ≤ m.messageTimestamp)))).map
          formatMessage) ∧
      (historyWindow msgs now days limit).total
        = (msgs.filter (fun m =>
            decide (now - days * (24 * 60 * 60) ≤ m.messageTimestamp))).length ∧
      (historyWindow msgs now days limit).messages.length
        ≤ (if limit = 0 then 100 else limit)) ∧
    (∀ now : Int,
      (historyWindow [c8LiveMsg now, c8OldMsg now] now 1 100).total = 1 ∧
      (historyWindow [c8LiveMsg now, c8OldMsg now] now 1 100).messages
        = [formatMessage (c8LiveMsg now)]) := by
  constructor
  · intro msgs now days limit
    refine ⟨List.sorted_insertionSort fmsgLeRel _, List.perm_insertionSort fmsgLeRel _,
      rfl, ?_⟩
    have hlen := (List.perm_insertionSort fmsgLeRel
      ((takeLast (if limit = 0 then 100 else limit)
        (msgs.filter (fun m =>
          decide (now - days * (24 * 60 * 60) ≤ m.messageTimestamp)))).map
        formatMessage)).length_eq
    calc (historyWindow msgs now days limit).messages.length
        = ((takeLast (if limit = 0 then 100 else limit)
            (msgs.filter (fun m =>
              decide (now - days * (24 * 60 * 60) ≤ m.messageTimestamp)))).map
            formatMessage).length := hlen
      _ ≤ (if limit = 0 then 100 else limit) := by
          rw [List.length_map]
          exact takeLast_length_le _ _
  · intro now
    have h1 : now - 1 * (24 * 60 * 60) ≤ now := by omega
    have h2 : ¬ (now ≤ now - 172800 + 86400) := by omega
    have h3 : now - 172800 + 86400 < now := by omega
    constructor <;>
      simp [historyWindow, c8LiveMsg, c8OldMsg, h1, h2, h3, takeLast,
        List.insertionSort, List.orderedInsert]

/-! ### C7: the chat-list projection -/

theorem foldl_formatChatStep_mem (o : Oracles) (l : List ChatRec) :
    ∀ (p : List FormattedChat × AccStore) (e : FormattedChat),
      e ∈ (l.foldl (formatChatStep o) p).1 →
      e ∈ p.1 ∨ ∃ c ∈ l, c.id = e.id ∧
        (c.lastMessage ≠ none ∨ c.conversationTimestamp ≠ 0) := by
  induction l with
  | nil => intro p e he; exact Or.inl he
  | cons c cs ih =>
    intro p e he
    rw [List.foldl_cons] at he
    rcases ih (formatChatStep o p c) e he with hstep | ⟨c', hc', hid, hact⟩
    · by_cases h : c.lastMessage = none ∧ c.conversationTimestamp = 0
      · rw [formatChatStep, if_pos h] at hstep
        exact Or.inl hstep
      · rw [formatChatStep, if_neg h] at hstep
        rcases List.mem_append.mp hstep with hp | hnew
        · exact Or.inl hp
        · right
          refine ⟨c, List.mem_cons_self c cs, ?_, ?_⟩
          · rcases List.mem_singleton.mp hnew with rfl
            rfl
          · rcases not_and_or.mp h with h1 | h2
            · exact Or.inl h1
            · exact Or.inr h2
    · exact Or.inr ⟨c', List.mem_cons_of_mem c hc', hid, hact⟩

/-- C7: `getFormattedChats` returns at most 50 entries, sorted
non-increasing by timestamp, and every returned entry corresponds to a
stored chat having activity (a last-message projection or a recorded
activity timestamp). -/
theorem c7_list_projection (st : AccStore) (o : Oracles) :
    (getFormattedChats st o).1.length ≤ 50 ∧
    List.Sorted chatGeRel (getFormattedChats st o).1 ∧
    ∀ e ∈ (getFormattedChats st o).1, ∃ c ∈ st.chats.map (·.2),
      c.id = e.id ∧ (c.lastMessage ≠ none ∨ c.conversationTimestamp ≠ 0) := by
  refine ⟨?_, ?_, ?_⟩
  · exact List.length_take_le _ _
  · exact List.Pairwise.sublist (List.take_sublist _ _)
      (List.sorted_insertionSort chatGeRel _)
  · intro e he
    have h1 : e ∈ List.insertionSort chatGeRel
        ((st.chats.map (·.2)).foldl (formatChatStep o) ([], st)).1 :=
      (List.take_sublist _ _).mem he
    have h2 : e ∈ ((st.chats.map (·.2)).foldl (formatChatStep o) ([], st)).1 :=
      (List.perm_insertionSort chatGeRel _).mem_iff.mp h1
    rcases foldl_formatChatStep_mem o (st.chats.map (·.2)) ([], st) e h2 with h | h
    · exact absurd h (List.not_mem_nil e)
    · exact h

/-- C7 witness: the theorem applied at a concrete store holding one chat
with a recorded activity timestamp. -/
theorem c7_witness :
    (⟨"3@s.whatsapp.net".toList, some ('+' :: "3".toList), none, none, 4, 0⟩ : FormattedChat)
      ∈ (getFormattedChats
          { chats := [(some "3@s.whatsapp.net".toList,
            { id := "3@s.whatsapp.net".toList, conversationTimestamp := 4 })] }
          noOracles).1 ∧
    ∃ c ∈ (({ chats := [(some "3@s.whatsapp.net".toList,
        { id := "3@s.whatsapp.net".toList, conversationTimestamp := 4 })] }
        : AccStore)).chats.map (·.2),
      c.id = (⟨"3@s.whatsapp.net".toList, some ('+' :: "3".toList), none, none, 4, 0⟩
        : FormattedChat).id ∧
      (c.lastMessage ≠ none ∨ c.conversationTimestamp ≠ 0) :=
  ⟨by decide, c7_list_projection _ noOracles |>.2.2 _ (by decide)⟩

/-! ### C1: broadcasts per gateway batch -/

theorem contactsUpsertOne_connState (st : AccStore) (c : ContactPayload) :
    (contactsUpsertOne st c).connectionState = st.connectionState := by
  by_cases h : truthy (jsOr (jsOr c.name c.notify) c.verifiedName) = true <;>
    simp [contactsUpsertOne, h]

theorem foldl_contactsUpsertOne_connState (batch : List ContactPayload) :
    ∀ st : AccStore,
      (batch.foldl contactsUpsertOne st).connectionState = st.connectionState := by
  induction batch with
  | nil => intro st; rfl
  | cons c cs ih =>
    intro st
    rw [List.foldl_cons, ih, contactsUpsertOne_connState]

theorem contactsUpdateOne_connState (st : AccStore) (u : ContactPayload) :
    (contactsUpdateOne st u).connectionState = st.connectionState := by
  by_cases h : truthy (jsOr (jsOr u.name u.notify)
      (((mget st.contacts (some u.id)).getD {}).name)) = true <;>
    simp [contactsUpdateOne, h]

theorem foldl_contactsUpdateOne_connState (batch : List ContactPayload) :
    ∀ st : AccStore,
      (batch.foldl contactsUpdateOne st).connectionState = st.connectionState := by
  induction batch with
  | nil => intro st; rfl
  | cons c cs ih =>
    intro st
    rw [List.foldl_cons, ih, contactsUpdateOne_connState]

theorem updateChatInList_events (st : AccStore) (o : Oracles) (jid : JStr)
    (m : Msg) : (updateChatInList st o jid m).2 = [Ev.chatsUpdate] := rfl

theorem messagesUpsertStep_events (o : Oracles) (utype : UpsertType)
    (p : AccStore × List Ev) (m : Msg) :
    (messagesUpsertStep o utype p m).2 =
      if ¬m.key.fromMe ∧ utype = .notify
      then p.2 ++ [Ev.newMessage, Ev.chatsUpdate] else p.2 := by
  by_cases h : ¬m.key.fromMe ∧ utype = UpsertType.notify
  · rw [if_pos h]
    simp only [messagesUpsertStep, if_pos h]
    rw [updateChatInList_events]
    simp
  · rw [if_neg h]
    simp only [messagesUpsertStep, if_neg h]

theorem foldl_messagesUpsertStep_count (o : Oracles) (utype : UpsertType)
    (batch : List Msg) :
    ∀ p : AccStore × List Ev,
      ((batch.foldl (messagesUpsertStep o utype) p).2.count Ev.chatsUpdate)
        = p.2.count Ev.chatsUpdate
          + (batch.filter (fun m =>
              decide (¬m.key.fromMe ∧ utype = UpsertType.notify))).length := by
  induction batch with
  | nil => intro p; simp
  | cons m ms ih =>
    intro p
    rw [List.foldl_cons, ih, messagesUpsertStep_events]
    by_cases h : ¬m.key.fromMe ∧ utype = UpsertType.notify
    · simp only [if_pos h, List.count_append, List.filter_cons,
        decide_eq_true_eq, h, if_pos]
      simp [List.count_cons]
      omega
    · have h' : ¬(m.key.fromMe = false ∧ utype = UpsertType.notify) := by
        intro hc
        exact h ⟨by simp [hc.1], hc.2⟩
      simp only [if_neg h, List.filter_cons]
      simp [h']

/-- C1 counterexample: the claim says a live message batch triggers exactly
one broadcast of the recomputed chat-list projection.  In fact
`messages.upsert` calls `updateChatInList` — which broadcasts — once per
inbound live message: a batch of two inbound notify-class messages emits
two `chats-update` broadcasts, not one. -/
theorem c1_counterexample :
    ((messagesUpsertHandler {} noOracles
        [⟨⟨"1@s.whatsapp.net".toList, false, "A".toList⟩, none, 5, none⟩,
         ⟨⟨"2@s.whatsapp.net".toList, false, "B".toList⟩, none, 6, none⟩]
        UpsertType.notify).2.count Ev.chatsUpdate) = 2 ∧
    ((messagesUpsertHandler {} noOracles
        [⟨⟨"1@s.whatsapp.net".toList, false, "A".toList⟩, none, 5, none⟩,
         ⟨⟨"2@s.whatsapp.net".toList, false, "B".toList⟩, none, 6, none⟩]
        UpsertType.notify).2.count Ev.chatsUpdate) ≠ 1 := by
  decide

/-- C1 (amended): chat batch upserts, chat incremental updates and bulk
history syncs each emit exactly one `chats-update` broadcast per batch;
contact batch upserts and incremental updates emit exactly one when the
account is connected and none otherwise; and a live `messages.upsert`
batch emits one `chats-update` broadcast per inbound notify-class message
in the batch (plus a `new-message` notification each), rather than one per
batch. -/
theorem c1_broadcast_per_batch :
    (∀ (st : AccStore) (o : Oracles) (batch : List ChatRec),
      (chatsUpsertHandler st o batch).2 = [Ev.chatsUpdate]) ∧
    (∀ (st : AccStore) (o : Oracles) (batch : List ChatUpdate),
      (chatsUpdateHandler st o batch).2 = [Ev.chatsUpdate]) ∧
    (∀ (st : AccStore) (o : Oracles) (cs : List ChatRec) (ms : List Msg),
      (historySetHandler st o cs ms).2 = [Ev.chatsUpdate]) ∧
    (∀ (st : AccStore) (o : Oracles) (batch : List ContactPayload),
      (contactsUpsertHandler st o batch).2
        = if st.connectionState = .connected then [Ev.chatsUpdate] else []) ∧
    (∀ (st : AccStore) (o : Oracles) (batch : List ContactPayload),
      (contactsUpdateHandler st o batch).2
        = if st.connectionState = .connected then [Ev.chatsUpdate] else []) ∧
    (∀ (st : AccStore) (o : Oracles) (batch : List Msg) (utype : UpsertType),
      ((messagesUpsertHandler st o batch utype).2.count Ev.chatsUpdate)
        = (batch.filter (fun m =>
            decide (¬m.key.fromMe ∧ utype = UpsertType.notify))).length) := by
  refine ⟨fun _ _ _ => rfl, fun _ _ _ => rfl, fun _ _ _ _ => rfl, ?_, ?_, ?_⟩
  · intro st o batch
    simp only [contactsUpsertHandler, foldl_contactsUpsertOne_connState]
    by_cases h : st.connectionState = ConnState.connected <;> simp [h]
  · intro st o batch
    simp only [contactsUpdateHandler, foldl_contactsUpdateOne_connState]
    by_cases h : st.connectionState = ConnState.connected <;> simp [h]
  · intro st o batch utype
    rw [messagesUpsertHandler, foldl_messagesUpsertStep_count]
    simp
